import Mathlib

/-!
Verification development for the consistency checker in
`spring-boot-kotlin-tdd/scripts/test_impl_matcher.py`.

The Python program scans two text corpora (test code, implementation code)
with fixed regular expressions, builds dictionaries and sets of extracted
facts, runs four validation rules that append error / warning message
strings to two instance lists, and renders a report whose success flag and
process exit code are derived from the error count.

The embedding below translates each regex into an explicit character
scanner with the exact matching semantics of Python `re.finditer` on the
patterns used by the source (leftmost match, greedy `\w+` / `\s*`,
non-greedy `(.*?)` stopping at the first closing parenthesis on the same
line, resumption at the end of each match).  Python dictionaries are
modelled as association lists with insertion order and in-place overwrite;
Python sets are modelled as insertion-ordered duplicate-free lists.  The
one genuinely non-deterministic aspect of the source — the iteration order
of a CPython `set` of strings, which depends on the per-process hash seed —
is modelled by an explicit enumeration parameter `ord : SetOrder` that is
applied exactly where the source iterates over or formats a set; an
enumeration that is a permutation of the stored elements corresponds to a
possible CPython behaviour.
-/

/-- Python `\w` on ASCII input: letters, digits, underscore. -/
def isWordChar (c : Char) : Bool := c.isAlpha || c.isDigit || c == '_'

/-- Python `\s` on ASCII input: space, tab, newline, carriage return,
vertical tab, form feed. -/
def isSpaceChar (c : Char) : Bool :=
  c == ' ' || c == Char.ofNat 9 || c == Char.ofNat 10 || c == Char.ofNat 13 ||
    c == Char.ofNat 11 || c == Char.ofNat 12

/-- One attempt of the pattern `(\w+)\.(\w+)\s*\(` (used by
`extract_method_calls`) at the current position: greedy word run, a dot,
greedy word run, optional whitespace, an opening parenthesis.  Returns the
two captured groups and the rest of the input after the match. -/
def tryMatchCall (l : List Char) : Option (String × String × List Char) :=
  let p1 := l.span isWordChar
  if p1.1.isEmpty then none else
    match p1.2 with
    | '.' :: r2 =>
      let p2 := r2.span isWordChar
      if p2.1.isEmpty then none else
        match p2.2.dropWhile isSpaceChar with
        | '(' :: r5 => some (String.mk p1.1, String.mk p2.1, r5)
        | _ => none
    | _ => none

/-- `re.finditer` driver for `tryMatchCall`: try a match at every position,
emit non-overlapping matches left to right, resuming after each match. -/
def scanCallsAux : Nat → List Char → List (String × String)
  | 0, _ => []
  | _, [] => []
  | Nat.succ fuel, c :: rest =>
    match tryMatchCall (c :: rest) with
    | some (a, b, rem) => (a, b) :: scanCallsAux fuel rem
    | none => scanCallsAux fuel rest

/-- All matches of `(\w+)\.(\w+)\s*\(` in a string, as (receiver, method). -/
def findCalls (s : String) : List (String × String) :=
  scanCallsAux s.toList.length s.toList

/-- One attempt of `fun\s+(\w+)\s*\(` (used by `extract_method_defs`). -/
def tryMatchDef (l : List Char) : Option (String × List Char) :=
  match l with
  | 'f' :: 'u' :: 'n' :: r =>
    let pws := r.span isSpaceChar
    if pws.1.isEmpty then none else
      let pw := pws.2.span isWordChar
      if pw.1.isEmpty then none else
        match pw.2.dropWhile isSpaceChar with
        | '(' :: r3 => some (String.mk pw.1, r3)
        | _ => none
  | _ => none

def scanDefsAux : Nat → List Char → List String
  | 0, _ => []
  | _, [] => []
  | Nat.succ fuel, c :: rest =>
    match tryMatchDef (c :: rest) with
    | some (nm, rem) => nm :: scanDefsAux fuel rem
    | none => scanDefsAux fuel rest

/-- All matches of `fun\s+(\w+)\s*\(` in a string (captured names). -/
def findDefs (s : String) : List String :=
  scanDefsAux s.toList.length s.toList

/-- The behaviour of the non-greedy group in `\((.*?)\)` without
`re.DOTALL`: split the input at the first `')'`, provided no newline occurs
before it.  Returns (characters before the parenthesis, rest after it). -/
def spanToClose : List Char → Option (List Char × List Char)
  | [] => none
  | c :: r =>
    if c = ')' then some ([], r)
    else if c = Char.ofNat 10 then none
    else (spanToClose r).map (fun q => (c :: q.1, q.2))

/-- One attempt of `\.(\w+)\s*\((.*?)\)` (the call pattern of
`validate_signature_match`): a dot, a word run, optional whitespace, `(`,
then the non-greedy argument capture up to the first `)`. -/
def tryMatchTestCall (l : List Char) : Option (String × String × List Char) :=
  match l with
  | '.' :: r =>
    let pw := r.span isWordChar
    if pw.1.isEmpty then none else
      match pw.2.dropWhile isSpaceChar with
      | '(' :: r3 =>
        (spanToClose r3).map (fun q => (String.mk pw.1, String.mk q.1, q.2))
      | _ => none
  | _ => none

def scanTestCallsAux : Nat → List Char → List (String × String)
  | 0, _ => []
  | _, [] => []
  | Nat.succ fuel, c :: rest =>
    match tryMatchTestCall (c :: rest) with
    | some (a, b, rem) => (a, b) :: scanTestCallsAux fuel rem
    | none => scanTestCallsAux fuel rest

/-- All matches of `\.(\w+)\s*\((.*?)\)`, as (method, argument text). -/
def findTestCalls (s : String) : List (String × String) :=
  scanTestCallsAux s.toList.length s.toList

/-- One attempt of `fun\s+(\w+)\s*\((.*?)\)` (the definition pattern of
`validate_signature_match`). -/
def tryMatchFun (l : List Char) : Option (String × String × List Char) :=
  match l with
  | 'f' :: 'u' :: 'n' :: r =>
    let pws := r.span isSpaceChar
    if pws.1.isEmpty then none else
      let pw := pws.2.span isWordChar
      if pw.1.isEmpty then none else
        match pw.2.dropWhile isSpaceChar with
        | '(' :: r3 =>
          (spanToClose r3).map (fun q => (String.mk pw.1, String.mk q.1, q.2))
        | _ => none
  | _ => none

def scanFunSigsAux : Nat → List Char → List (String × String)
  | 0, _ => []
  | _, [] => []
  | Nat.succ fuel, c :: rest =>
    match tryMatchFun (c :: rest) with
    | some (a, b, rem) => (a, b) :: scanFunSigsAux fuel rem
    | none => scanFunSigsAux fuel rest

/-- All matches of `fun\s+(\w+)\s*\((.*?)\)`, as (name, parameter text). -/
def findFunSigs (s : String) : List (String × String) :=
  scanFunSigsAux s.toList.length s.toList

/-- One greedy repetition step of `(?:\s*,\s*\w+)` in the throws pattern;
the captured group text keeps the source whitespace and comma. -/
def throwsTailStep (l : List Char) : Option (List Char × List Char) :=
  let pws := l.span isSpaceChar
  match pws.2 with
  | ',' :: r2 =>
    let pws2 := r2.span isSpaceChar
    let pw := pws2.2.span isWordChar
    if pw.1.isEmpty then none
    else some (pws.1 ++ ',' :: (pws2.1 ++ pw.1), pw.2)
  | _ => none

def throwsTailAux : Nat → List Char → List Char × List Char
  | 0, l => ([], l)
  | Nat.succ fuel, l =>
    match throwsTailStep l with
    | some (cs, rem) =>
      let res := throwsTailAux fuel rem
      (cs ++ res.1, res.2)
    | none => ([], l)

/-- One attempt of `throws\s+(\w+(?:\s*,\s*\w+)*)` (used by
`validate_exception_handling`); returns the captured group text. -/
def tryMatchThrows (l : List Char) : Option (String × List Char) :=
  match l with
  | 't' :: 'h' :: 'r' :: 'o' :: 'w' :: 's' :: r =>
    let pws := r.span isSpaceChar
    if pws.1.isEmpty then none else
      let pw := pws.2.span isWordChar
      if pw.1.isEmpty then none else
        let tail := throwsTailAux pw.2.length pw.2
        some (String.mk (pw.1 ++ tail.1), tail.2)
  | _ => none

def scanThrowsAux : Nat → List Char → List String
  | 0, _ => []
  | _, [] => []
  | Nat.succ fuel, c :: rest =>
    match tryMatchThrows (c :: rest) with
    | some (grp, rem) => grp :: scanThrowsAux fuel rem
    | none => scanThrowsAux fuel rest

/-- All captured groups of the throws pattern in a string. -/
def findThrows (s : String) : List String :=
  scanThrowsAux s.toList.length s.toList

def assertLit : List Char := ("assertThatThrownBy").toList

def isoLit : List Char := (".isInstanceOf(").toList

/-- The lazy `.*?\.isInstanceOf\((\w+)` part (with `re.DOTALL`): find the
first position at which `.isInstanceOf(` occurs followed by at least one
word character, and capture the greedy word run after it. -/
def searchIsoAux : Nat → List Char → Option (String × List Char)
  | _, [] => none
  | 0, _ => none
  | Nat.succ fuel, c :: rest =>
    if (c :: rest).take 14 = isoLit then
      let pw := ((c :: rest).drop 14).span isWordChar
      if pw.1.isEmpty then searchIsoAux fuel rest
      else some (String.mk pw.1, pw.2)
    else searchIsoAux fuel rest

/-- One attempt of `assertThatThrownBy.*?\.isInstanceOf\((\w+)`. -/
def tryMatchAssert (l : List Char) : Option (String × List Char) :=
  if l.take 18 = assertLit then searchIsoAux (l.drop 18).length (l.drop 18)
  else none

def scanAssertsAux : Nat → List Char → List String
  | 0, _ => []
  | _, [] => []
  | Nat.succ fuel, c :: rest =>
    match tryMatchAssert (c :: rest) with
    | some (w, rem) => w :: scanAssertsAux fuel rem
    | none => scanAssertsAux fuel rest

/-- All captured exception names of the assertion pattern. -/
def findAsserts (s : String) : List String :=
  scanAssertsAux s.toList.length s.toList

/-! ## Python dictionary / set model

A Python `dict` keeps insertion order and overwrites values in place; a
Python `set` is duplicate-free.  Both are modelled as association lists /
insertion-ordered duplicate-free lists. -/

/-- `set.add`: append the element unless already present. -/
def listInsert (l : List String) (x : String) : List String :=
  if x ∈ l then l else l ++ [x]

/-- `set.update` with an iterable. -/
def setUpdate (l : List String) (xs : List String) : List String :=
  xs.foldl listInsert l

/-- `d[k] = v` on a Python dict: overwrite in place, else append. -/
def dictInsert (d : List (String × String)) (k v : String) :
    List (String × String) :=
  if d.any (fun p => p.1 == k) then
    d.map (fun p => if p.1 == k then (k, v) else p)
  else d ++ [(k, v)]

/-- `d.get(k)` / `k in d` membership lookup. -/
def dictLookup {α : Type} (d : List (String × α)) (k : String) : Option α :=
  (d.find? (fun p => p.1 == k)).map Prod.snd

/-- The insertion step of `extract_method_calls`: ensure a bucket for the
receiver, then add the method name to the receiver's set. -/
def addCall (d : List (String × List String)) (obj meth : String) :
    List (String × List String) :=
  if d.any (fun p => p.1 == obj) then
    d.map (fun p => if p.1 == obj then (p.1, listInsert p.2 meth) else p)
  else d ++ [(obj, [meth])]

/-- Does the calls store already contain the (receiver, method) pair? -/
def hasCall (calls : List (String × List String)) (r m : String) : Bool :=
  match dictLookup calls r with
  | some ms => ms.contains m
  | none => false

/-! ## Fact extraction (Fact Store) -/

/-- `extract_method_calls`: dict receiver → set of called method names. -/
def extract_method_calls (test_code : String) : List (String × List String) :=
  (findCalls test_code).foldl (fun d p => addCall d p.1 p.2) []

/-- `extract_method_defs`: set of defined method names. -/
def extract_method_defs (impl_code : String) : List String :=
  (findDefs impl_code).foldl listInsert []

/-- `impl_sigs` of `validate_signature_match`: dict name → parameter text,
last write wins. -/
def implSigs (impl_code : String) : List (String × String) :=
  (findFunSigs impl_code).foldl (fun d p => dictInsert d p.1 p.2) []

/-- `test_calls` of `validate_signature_match`: dict name → argument text,
last write wins. -/
def testCalls (test_code : String) : List (String × String) :=
  (findTestCalls test_code).foldl (fun d p => dictInsert d p.1 p.2) []

/-! ## Message rendering

The source builds message strings with f-strings; sets are rendered with
Python's `repr`, which surrounds each element with single quotes and lists
the elements in the runtime's set-iteration order. -/

/-- A single-quote character as a string. -/
def sQuote : String := "\x27"

def undefinedMethodMsg (m : String) : String :=
  "Method " ++ sQuote ++ m ++ sQuote ++ " is called in tests but not found in implementation"

/-- Python `repr` of a non-empty set of strings, given the enumeration
order of its elements. -/
def pySetRepr (l : List String) : String :=
  "\x7b" ++ String.intercalate (", ") (l.map (fun s => sQuote ++ s ++ sQuote)) ++ "\x7d"

def uncoveredMsg (l : List String) : String :=
  "Public methods without tests: " ++ pySetRepr l

def untestedExcMsg (l : List String) : String :=
  "Exceptions declared but not tested: " ++ pySetRepr l

def sigErrorMsg (m : String) (tc ic : Nat) : String :=
  "Method " ++ sQuote ++ m ++ sQuote ++ " called with " ++ toString tc ++
    " params in test, but defined with " ++ toString ic ++ " in implementation"

/-! ## Rule Engine -/

/-- An enumeration of a CPython set of strings.  The source's observable
output depends on it wherever a set is iterated or rendered; any
permutation of the stored elements is a possible CPython enumeration
(the order depends on the per-process string hash seed). -/
abbrev SetOrder : Type := List String → List String

/-- Allow-list of helper names skipped by `validate_method_match`. -/
def helperNames : List String :=
  [("assertEquals"), ("assertTrue"), ("assertFalse"), ("reset"), ("given"), ("verify")]

/-- Structural methods exempt from the coverage warning. -/
def exemptNames : List String :=
  [("equals"), ("hashCode"), ("toString"), ("getClass")]

/-- Does `validate_method_match` emit an error for method name `m`? -/
def undefEmit (defs : List String) (m : String) : Bool :=
  !(helperNames.contains m) && !(defs.contains m)

/-- The loop body of `validate_method_match` for one method name:
skip allow-listed helpers, then emit an error if the name is undefined. -/
def undefEmitMsg (defs : List String) (m : String) : Option String :=
  if helperNames.contains m then none
  else if defs.contains m then none
  else some (undefinedMethodMsg m)

/-- The error-emission loop of `validate_method_match` over an already
built calls store. -/
def methodMatchErrorsOfCalls (ord : SetOrder) (calls : List (String × List String))
    (defs : List String) : List String :=
  calls.flatMap (fun p => (ord p.2).filterMap (undefEmitMsg defs))

/-- Errors appended by `validate_method_match`. -/
def methodMatchErrors (ord : SetOrder) (test_code impl_code : String) : List String :=
  methodMatchErrorsOfCalls ord (extract_method_calls test_code)
    (extract_method_defs impl_code)

/-- Python `m.startswith("_")`: the string is non-empty and its first
character is an underscore. -/
def startsWithUnderscore (m : String) : Bool :=
  match m.toList with
  | [] => false
  | c :: _ => c == '_'

/-- The `uncovered` set of `validate_test_coverage`: public (non-underscore)
defined methods, minus all called methods, minus the structural allow-list. -/
def uncoveredList (test_code impl_code : String) : List String :=
  let defs := extract_method_defs impl_code
  let calls := extract_method_calls test_code
  let allCalled := calls.foldl (fun acc p => setUpdate acc p.2) []
  ((defs.filter (fun m => !(startsWithUnderscore m))).filter
      (fun m => !(allCalled.contains m))).filter (fun m => !(exemptNames.contains m))

/-- Warnings appended by `validate_test_coverage`. -/
def coverageWarnings (ord : SetOrder) (test_code impl_code : String) : List String :=
  let uncovered := uncoveredList test_code impl_code
  if uncovered.isEmpty then [] else [uncoveredMsg (ord uncovered)]

/-- `str.replace(" ", "")`: remove space characters (only U+0020). -/
def removeSpaces (l : List Char) : List Char := l.filter (fun c => !(c == ' '))

/-- Python `str.split(",")`: split on every comma, keeping empty pieces. -/
def splitCommas : List Char → List (List Char)
  | [] => [[]]
  | ',' :: r => [] :: splitCommas r
  | c :: r =>
    match splitCommas r with
    | [] => [[c]]
    | g :: gs => (c :: g) :: gs

/-- The `thrown_exceptions` set of `validate_exception_handling`. -/
def thrownExceptions (impl_code : String) : List String :=
  (findThrows impl_code).foldl
    (fun acc grp => setUpdate acc ((splitCommas (removeSpaces grp.toList)).map String.mk)) []

/-- The `tested_exceptions` set of `validate_exception_handling`. -/
def testedExceptions (test_code : String) : List String :=
  (findAsserts test_code).foldl listInsert []

/-- The `untested` set difference of `validate_exception_handling`. -/
def untestedList (test_code impl_code : String) : List String :=
  (thrownExceptions impl_code).filter
    (fun e => !((testedExceptions test_code).contains e))

/-- Warnings appended by `validate_exception_handling`. -/
def exceptionWarnings (ord : SetOrder) (test_code impl_code : String) : List String :=
  let untested := untestedList test_code impl_code
  if untested.isEmpty then [] else [untestedExcMsg (ord untested)]

/-- Is `p.strip()` truthy, i.e. does the piece contain a non-space char? -/
def stripNonempty (l : List Char) : Bool := l.any (fun c => !(isSpaceChar c))

/-- Parameter / argument count: split the captured text on commas and count
the pieces whose `strip()` is non-empty. -/
def paramCount (s : String) : Nat :=
  ((splitCommas s.toList).filter stripNonempty).length

/-- The per-entry comparison of `validate_signature_match`: if the called
method has a definition and the counts differ, emit the error message. -/
def sigEntryError (isigs : List (String × String)) (p : String × String) :
    Option String :=
  match dictLookup isigs p.1 with
  | none => none
  | some ipar =>
    if paramCount p.2 ≠ paramCount ipar then
      some (sigErrorMsg p.1 (paramCount p.2) (paramCount ipar))
    else none

/-- Errors appended by `validate_signature_match`. -/
def signatureErrors (test_code impl_code : String) : List String :=
  (testCalls test_code).filterMap (sigEntryError (implSigs impl_code))

/-! ## Matcher state, report, driver -/

/-- The mutable `self.errors` / `self.warnings` lists of a
`TestImplMatcher` instance (created empty by `__init__`). -/
structure MatcherState where
  errors : List String
  warnings : List String
  deriving DecidableEq

/-- The dictionary returned by `run_all_checks`. -/
structure Report where
  success : Bool
  errors : List String
  warnings : List String
  error_count : Nat
  warning_count : Nat
  deriving DecidableEq

/-- `validate_method_match`: append the rule's errors, return whether the
whole errors list is empty. -/
def validate_method_match (ord : SetOrder) (test_code impl_code : String)
    (s : MatcherState) : Bool × MatcherState :=
  let s2 : MatcherState := ⟨s.errors ++ methodMatchErrors ord test_code impl_code, s.warnings⟩
  (s2.errors.isEmpty, s2)

/-- `validate_test_coverage`: append the rule's warnings, return True. -/
def validate_test_coverage (ord : SetOrder) (test_code impl_code : String)
    (s : MatcherState) : Bool × MatcherState :=
  (true, ⟨s.errors, s.warnings ++ coverageWarnings ord test_code impl_code⟩)

/-- `validate_exception_handling`: append the rule's warnings, return True. -/
def validate_exception_handling (ord : SetOrder) (test_code impl_code : String)
    (s : MatcherState) : Bool × MatcherState :=
  (true, ⟨s.errors, s.warnings ++ exceptionWarnings ord test_code impl_code⟩)

/-- `validate_signature_match`: append the rule's errors, return whether the
whole errors list is empty. -/
def validate_signature_match (test_code impl_code : String)
    (s : MatcherState) : Bool × MatcherState :=
  let s2 : MatcherState := ⟨s.errors ++ signatureErrors test_code impl_code, s.warnings⟩
  (s2.errors.isEmpty, s2)

/-- `run_all_checks`: run the four validators in source order on the
instance state, then build the result dictionary. -/
def run_all_checks (ord : SetOrder) (test_code impl_code : String)
    (s : MatcherState) : Bool × Report × MatcherState :=
  let s1 := (validate_method_match ord test_code impl_code s).2
  let s2 := (validate_test_coverage ord test_code impl_code s1).2
  let s3 := (validate_exception_handling ord test_code impl_code s2).2
  let s4 := (validate_signature_match test_code impl_code s3).2
  let ok := s4.errors.isEmpty
  (ok, ⟨ok, s4.errors, s4.warnings, s4.errors.length, s4.warnings.length⟩, s4)

/-- `str(FileNotFoundError)` as interpolated into the failure message. -/
def fileNotFoundMsg (p : String) : String :=
  "File not found: [Errno 2] No such file or directory: " ++ sQuote ++ p ++ sQuote

/-- The dictionary returned by `validate_files`: either the full report
dictionary, or the failure dictionary holding only `success` and `error`. -/
inductive RunResult where
  | report : Report → RunResult
  | failure : String → RunResult
  deriving DecidableEq

/-- The files visible to the driver: path → contents. -/
abbrev FileSystem : Type := List (String × String)

/-- `Path.read_text()`: the file's text, or a `FileNotFoundError`. -/
def readText (fs : FileSystem) (p : String) : Option String := dictLookup fs p

/-- `validate_files`: read both files (failure dictionary on
`FileNotFoundError`), then run all checks on a fresh matcher. -/
def validate_files (ord : SetOrder) (fs : FileSystem)
    (test_file impl_file : String) : RunResult :=
  match readText fs test_file with
  | none => .failure (fileNotFoundMsg test_file)
  | some tcode =>
    match readText fs impl_file with
    | none => .failure (fileNotFoundMsg impl_file)
    | some icode => .report (run_all_checks ord tcode icode ⟨[], []⟩).2.1

/-- The message of an uncaught `KeyError`. -/
def keyErrorMsg (k : String) : String := "KeyError: " ++ sQuote ++ k ++ sQuote

/-- `result["success"]` — present in both result dictionaries. -/
def resultSuccess : RunResult → Bool
  | .report r => r.success
  | .failure _ => false

/-- `result.get("errors")` — absent from the failure dictionary. -/
def resultGetErrors : RunResult → Option (List String)
  | .report r => some r.errors
  | .failure _ => none

/-- `result.get("warnings")` — absent from the failure dictionary. -/
def resultGetWarnings : RunResult → Option (List String)
  | .report r => some r.warnings
  | .failure _ => none

/-- `result["error_count"]` — raises `KeyError` on the failure dictionary. -/
def resultErrorCount : RunResult → Except String Nat
  | .report r => .ok r.error_count
  | .failure _ => .error (keyErrorMsg ("error_count"))

/-- `result["warning_count"]` — raises `KeyError` on the failure dictionary. -/
def resultWarningCount : RunResult → Except String Nat
  | .report r => .ok r.warning_count
  | .failure _ => .error (keyErrorMsg ("warning_count"))

def eqLine : String := String.mk (List.replicate 60 '=')

/-- `print_report`: the sequence of printed strings, or the uncaught
exception raised while rendering (the failure dictionary lacks the
`error_count` / `warning_count` keys accessed unconditionally at the end). -/
def print_report (result : RunResult) : Except String (List String) :=
  let l1 := ["\n" ++ eqLine, "TEST-IMPLEMENTATION MATCHER REPORT", eqLine]
  let l2 := if resultSuccess result then ["✅ PASSED: All tests match implementation"]
            else ["❌ FAILED: Found mismatches"]
  let l3 := match resultGetErrors result with
    | some (e :: es) =>
        ("\n🔴 ERRORS (" ++ toString (e :: es).length ++ "):") ::
          (e :: es).map (fun x => "  - " ++ x)
    | _ => []
  let l4 := match resultGetWarnings result with
    | some (w :: ws) =>
        ("\n⚠️  WARNINGS (" ++ toString (w :: ws).length ++ "):") ::
          (w :: ws).map (fun x => "  - " ++ x)
    | _ => []
  match resultErrorCount result with
  | .error e => .error e
  | .ok ec =>
    match resultWarningCount result with
    | .error e => .error e
    | .ok wc =>
      .ok (l1 ++ l2 ++ l3 ++ l4 ++
        ["\n" ++ eqLine,
         "Total: " ++ toString ec ++ " errors, " ++ toString wc ++ " warnings",
         eqLine ++ "\n"])

/-- `sys.exit(0 if result["success"] else 1)`. -/
def exitCode (b : Bool) : Nat := if b then 0 else 1

/-- The `__main__` block: usage check, `validate_files`, `print_report`
(which can raise), then `sys.exit`.  An `Except.error` is an uncaught
Python exception escaping the script. -/
def mainRun (ord : SetOrder) (fs : FileSystem) (argv : List String) :
    Except String (List String × Nat) :=
  if argv.length < 3 then
    .ok (["Usage: python test_impl_matcher.py <test_file> <impl_file>"], 1)
  else
    let result := validate_files ord fs (argv.getD 1 ("")) (argv.getD 2 (""))
    match print_report result with
    | .error e => .error e
    | .ok lines => .ok (lines, exitCode (resultSuccess result))

/-! ## Helper lemmas -/

lemma isEmpty_eq_length_beq {α : Type} (l : List α) : l.isEmpty = (l.length == 0) := by
  cases l <;> rfl

lemma undefEmitMsg_eq (defs : List String) (m : String) :
    undefEmitMsg defs m =
      if undefEmit defs m then some (undefinedMethodMsg m) else none := by
  by_cases h1 : m ∈ helperNames
  · simp [undefEmitMsg, undefEmit, h1]
  · by_cases h2 : m ∈ defs
    · simp [undefEmitMsg, undefEmit, h1, h2]
    · simp [undefEmitMsg, undefEmit, h1, h2]

lemma length_filterMap_ite {α β : Type} (p : α → Bool) (g : α → β) (l : List α) :
    (l.filterMap (fun a => if p a then some (g a) else none)).length
      = (l.filter p).length := by
  induction l with
  | nil => rfl
  | cons a t ih =>
    by_cases h : p a = true
    · simp [List.filterMap_cons, List.filter_cons, h, ih]
    · simp [List.filterMap_cons, List.filter_cons, h, ih]

lemma filterMap_undef_length (defs : List String) (l : List String) :
    (l.filterMap (undefEmitMsg defs)).length = (l.filter (undefEmit defs)).length := by
  have hfun : undefEmitMsg defs =
      fun m => if undefEmit defs m then some (undefinedMethodMsg m) else none :=
    funext (undefEmitMsg_eq defs)
  rw [hfun, length_filterMap_ite]

lemma methodMatchErrorsOfCalls_length (ord : SetOrder) (hord : ∀ l, (ord l).Perm l)
    (calls : List (String × List String)) (defs : List String) :
    (methodMatchErrorsOfCalls ord calls defs).length =
      (calls.flatMap (fun p => p.2.filter (undefEmit defs))).length := by
  induction calls with
  | nil => rfl
  | cons p rest ih =>
    simp only [methodMatchErrorsOfCalls, List.flatMap_cons, List.length_append] at ih ⊢
    rw [ih]
    have hperm := (hord p.2).filterMap (undefEmitMsg defs)
    rw [hperm.length_eq, filterMap_undef_length]

lemma methodMatchErrorsOfCalls_perm (ord1 ord2 : SetOrder)
    (h1 : ∀ l, (ord1 l).Perm l) (h2 : ∀ l, (ord2 l).Perm l)
    (calls : List (String × List String)) (defs : List String) :
    (methodMatchErrorsOfCalls ord1 calls defs).Perm
      (methodMatchErrorsOfCalls ord2 calls defs) := by
  induction calls with
  | nil => exact List.Perm.refl _
  | cons p rest ih =>
    simp only [methodMatchErrorsOfCalls, List.flatMap_cons] at ih ⊢
    exact List.Perm.append
      (((h1 p.2).filterMap (undefEmitMsg defs)).trans
        ((h2 p.2).filterMap (undefEmitMsg defs)).symm) ih

lemma update_map_fst (d : List (String × String)) (k v : String) :
    (d.map (fun p => if p.1 == k then (k, v) else p)).map Prod.fst = d.map Prod.fst := by
  rw [List.map_map]
  apply List.map_congr_left
  intro p _
  by_cases h : p.1 = k
  · simp [Function.comp, h]
  · simp [Function.comp, h]

lemma dictLookup_dictInsert (d : List (String × String)) (kk v k : String) :
    dictLookup (dictInsert d kk v) k = if k = kk then some v else dictLookup d k := by
  by_cases hany : d.any (fun p => p.1 == kk) = true
  · simp only [dictInsert, hany, if_true, dictLookup]
    rw [List.find?_map]
    have hpred : ((fun p : String × String => p.1 == k) ∘
        (fun p => if p.1 == kk then (kk, v) else p))
          = (fun p : String × String => p.1 == k) := by
      funext q
      by_cases hq : q.1 = kk
      · simp [Function.comp, hq]
      · simp [Function.comp, hq]
    rw [hpred]
    by_cases hk : k = kk
    · subst hk
      have hsome : (List.find? (fun p : String × String => p.1 == k) d).isSome = true := by
        rw [List.find?_isSome]
        obtain ⟨q0, hq0mem, hq0⟩ := List.any_eq_true.mp hany
        exact ⟨q0, hq0mem, hq0⟩
      obtain ⟨q1, hfind⟩ := Option.isSome_iff_exists.mp hsome
      have hq1 := List.find?_some hfind
      simp only [beq_iff_eq] at hq1
      rw [hfind]
      simp [hq1]
    · simp only [if_neg hk]
      cases hfind : List.find? (fun p : String × String => p.1 == k) d with
      | none => simp
      | some q1 =>
        have hq1 := List.find?_some hfind
        simp only [beq_iff_eq] at hq1
        have hq1kk : ¬ q1.1 = kk := by
          rw [hq1]
          exact hk
        simp [hq1kk]
  · have hany' : d.any (fun p => p.1 == kk) = false := eq_false_of_ne_true hany
    simp only [dictInsert, hany', Bool.false_eq_true, if_false, dictLookup,
      List.find?_append]
    by_cases hk : k = kk
    · subst hk
      have hnone : List.find? (fun p : String × String => p.1 == k) d = none := by
        rw [List.find?_eq_none]
        intro x hx
        exact fun hbad => (List.any_eq_false.mp hany') x hx hbad
      simp [hnone, List.find?]
    · have h1 : (kk == k) = false := beq_eq_false_iff_ne.mpr (fun hee => hk hee.symm)
      simp [List.find?, h1, hk]

lemma dictInsert_map_fst (d : List (String × String)) (k v : String) :
    (dictInsert d k v).map Prod.fst =
      if d.any (fun p => p.1 == k) then d.map Prod.fst else d.map Prod.fst ++ [k] := by
  by_cases h : d.any (fun p => p.1 == k) = true
  · simp only [dictInsert, h, if_true, update_map_fst]
  · have h' := eq_false_of_ne_true h
    simp [dictInsert, h']

lemma not_mem_keys_of_any_false {β : Type} (d : List (String × β)) (k : String)
    (h : d.any (fun p => p.1 == k) = false) : k ∉ d.map Prod.fst := by
  intro hmem
  obtain ⟨p, hp, hfst⟩ := List.mem_map.mp hmem
  exact (List.any_eq_false.mp h) p hp (by simp [hfst])

lemma dictInsert_keys_nodup (d : List (String × String)) (k v : String)
    (h : (d.map Prod.fst).Nodup) : ((dictInsert d k v).map Prod.fst).Nodup := by
  rw [dictInsert_map_fst]
  by_cases hany : d.any (fun p => p.1 == k) = true
  · simpa [hany] using h
  · have h' := eq_false_of_ne_true hany
    simp only [h', Bool.false_eq_true, if_false]
    rw [(List.perm_append_singleton k (d.map Prod.fst)).nodup_iff, List.nodup_cons]
    exact ⟨not_mem_keys_of_any_false d k h', h⟩

lemma foldl_dictInsert_keys_nodup (ps : List (String × String))
    (d : List (String × String)) (h : (d.map Prod.fst).Nodup) :
    (((ps.foldl (fun dd p => dictInsert dd p.1 p.2) d)).map Prod.fst).Nodup := by
  induction ps generalizing d with
  | nil => exact h
  | cons p t ih => exact ih _ (dictInsert_keys_nodup _ _ _ h)

lemma testCalls_keys_nodup (t : String) : ((testCalls t).map Prod.fst).Nodup :=
  foldl_dictInsert_keys_nodup _ [] (by simp)

lemma addCall_update_map_fst (d : List (String × List String)) (r m : String) :
    (d.map (fun p => if p.1 == r then (p.1, listInsert p.2 m) else p)).map Prod.fst
      = d.map Prod.fst := by
  rw [List.map_map]
  apply List.map_congr_left
  intro p _
  by_cases h : p.1 = r
  · simp [Function.comp, h]
  · simp [Function.comp, h]

lemma addCall_map_fst (d : List (String × List String)) (r m : String) :
    (addCall d r m).map Prod.fst =
      if d.any (fun p => p.1 == r) then d.map Prod.fst else d.map Prod.fst ++ [r] := by
  by_cases h : d.any (fun p => p.1 == r) = true
  · simp only [addCall, h, if_true, addCall_update_map_fst]
  · have h' := eq_false_of_ne_true h
    simp [addCall, h']

lemma addCall_keys_nodup (d : List (String × List String)) (r m : String)
    (h : (d.map Prod.fst).Nodup) : ((addCall d r m).map Prod.fst).Nodup := by
  rw [addCall_map_fst]
  by_cases hany : d.any (fun p => p.1 == r) = true
  · simpa [hany] using h
  · have h' := eq_false_of_ne_true hany
    simp only [h', Bool.false_eq_true, if_false]
    rw [(List.perm_append_singleton r (d.map Prod.fst)).nodup_iff, List.nodup_cons]
    exact ⟨not_mem_keys_of_any_false d r h', h⟩

lemma extract_method_calls_keys_nodup (t : String) :
    ((extract_method_calls t).map Prod.fst).Nodup := by
  unfold extract_method_calls
  generalize findCalls t = ps
  have hgen : ∀ (d : List (String × List String)), (d.map Prod.fst).Nodup →
      ((ps.foldl (fun dd p => addCall dd p.1 p.2) d).map Prod.fst).Nodup := by
    induction ps with
    | nil => exact fun d h => h
    | cons p t ih => exact fun d h => ih _ (addCall_keys_nodup _ _ _ h)
  exact hgen [] (by simp)

lemma map_addCall_id (rest : List (String × List String)) (r m : String)
    (h : r ∉ rest.map Prod.fst) :
    rest.map (fun p => if p.1 == r then (p.1, listInsert p.2 m) else p) = rest := by
  induction rest with
  | nil => rfl
  | cons p t ih =>
    rw [List.map_cons, List.mem_cons, not_or] at h
    obtain ⟨h1, h2⟩ := h
    have hp : ¬ p.1 = r := fun hee => h1 hee.symm
    rw [List.map_cons, ih h2]
    simp [hp]

lemma addCall_cons_ne (k : String) (ms : List String)
    (rest : List (String × List String)) (r m : String) (h : ¬ k = r) :
    addCall ((k, ms) :: rest) r m = (k, ms) :: addCall rest r m := by
  have hk : (k == r) = false := beq_eq_false_iff_ne.mpr h
  by_cases hr : rest.any (fun p => p.1 == r) = true
  · simp [addCall, hk, hr, h]
  · have hr' := eq_false_of_ne_true hr
    simp [addCall, hk, hr', h]

lemma hasCall_cons (k : String) (ms : List String) (rest : List (String × List String))
    (r m : String) :
    hasCall ((k, ms) :: rest) r m = if k == r then ms.contains m else hasCall rest r m := by
  by_cases h : (k == r) = true
  · simp [hasCall, dictLookup, List.find?_cons, h]
  · have h' := eq_false_of_ne_true h
    simp [hasCall, dictLookup, List.find?_cons, h']

lemma flatMap_filter_addCall (calls : List (String × List String)) (q : String → Bool)
    (r m : String) (hnd : (calls.map Prod.fst).Nodup) :
    ((addCall calls r m).flatMap (fun p => p.2.filter q)).length =
      (calls.flatMap (fun p => p.2.filter q)).length +
        (if hasCall calls r m then 0 else if q m then 1 else 0) := by
  induction calls with
  | nil =>
    simp only [addCall, List.any_nil, Bool.false_eq_true, if_false, List.nil_append,
      hasCall, dictLookup, List.find?_nil, Option.map_none, List.flatMap_cons,
      List.flatMap_nil, List.append_nil, List.length_nil, Nat.zero_add]
    by_cases hq : q m = true
    · simp [List.filter, hq]
    · have hq' := eq_false_of_ne_true hq
      simp [List.filter, hq']
  | cons p rest ih =>
    obtain ⟨k, ms⟩ := p
    rw [List.map_cons, List.nodup_cons] at hnd
    obtain ⟨hknot, hrest⟩ := hnd
    by_cases hkr : k = r
    · subst hkr
      have hany : (((k, ms) :: rest).any (fun p => p.1 == k)) = true := by simp
      have hmap : ((k, ms) :: rest).map (fun p => if p.1 == k then (p.1, listInsert p.2 m) else p)
          = (k, listInsert ms m) :: rest := by
        rw [List.map_cons, map_addCall_id rest k m hknot]
        simp
      have haddc : addCall ((k, ms) :: rest) k m = (k, listInsert ms m) :: rest := by
        simp only [addCall, hany, if_true]
        exact hmap
      rw [haddc, hasCall_cons]
      simp only [beq_self_eq_true, if_true]
      by_cases hm : m ∈ ms
      · have hcont : ms.contains m = true := List.elem_iff.mpr hm
        simp [listInsert, hm, hcont]
      · have hcont : ms.contains m = false := by
          rw [List.contains_eq_any_beq, List.any_eq_false]
          intro x hx
          intro hbad
          exact hm (eq_of_beq hbad ▸ hx)
        simp only [listInsert, hm, if_false, hcont, Bool.false_eq_true,
          List.flatMap_cons, List.filter_append, List.length_append]
        by_cases hq : q m = true
        · simp [List.filter, hq]
          omega
        · have hq' := eq_false_of_ne_true hq
          simp [List.filter, hq']
    · rw [addCall_cons_ne k ms rest r m hkr, hasCall_cons]
      have hk : (k == r) = false := beq_eq_false_iff_ne.mpr hkr
      simp only [hk, Bool.false_eq_true, if_false, List.flatMap_cons, List.length_append]
      rw [ih hrest]
      omega

lemma spanToClose_spec (l : List Char) (a rem : List Char)
    (h : spanToClose l = some (a, rem)) :
    (')' ∉ a) ∧ (Char.ofNat 10 ∉ a) := by
  induction l generalizing a rem with
  | nil => simp [spanToClose] at h
  | cons c r ih =>
    by_cases hc : c = ')'
    · rw [spanToClose, if_pos hc] at h
      obtain ⟨ha, _⟩ := Prod.mk.injEq .. ▸ (Option.some.injEq .. ▸ h)
      rw [← ha]
      simp
    · by_cases hn : c = Char.ofNat 10
      · rw [spanToClose, if_neg hc, if_pos hn] at h
        simp at h
      · rw [spanToClose, if_neg hc, if_neg hn, Option.map_eq_some'] at h
        obtain ⟨⟨a1, rem1⟩, hsp, heq⟩ := h
        obtain ⟨ha, hrem⟩ := Prod.mk.injEq .. ▸ heq
        obtain ⟨hno1, hno2⟩ := ih a1 rem1 hsp
        rw [← ha]
        constructor
        · simp [List.mem_cons, hno1]
          exact fun hee => hc hee.symm
        · simp [List.mem_cons, hno2]
          exact fun hee => hn hee.symm

lemma coverageWarnings_length (ord : SetOrder) (t i : String) :
    (coverageWarnings ord t i).length =
      if (uncoveredList t i).isEmpty then 0 else 1 := by
  unfold coverageWarnings
  by_cases h : (uncoveredList t i).isEmpty = true
  · simp [h]
  · have h' := eq_false_of_ne_true h
    simp [h']

lemma exceptionWarnings_length (ord : SetOrder) (t i : String) :
    (exceptionWarnings ord t i).length =
      if (untestedList t i).isEmpty then 0 else 1 := by
  unfold exceptionWarnings
  by_cases h : (untestedList t i).isEmpty = true
  · simp [h]
  · have h' := eq_false_of_ne_true h
    simp [h']

lemma ite_isEmpty_length {α : Type} (l : List α) :
    (if l.isEmpty then (0 : Nat) else 1) = if l.length = 0 then 0 else 1 := by
  cases l <;> simp

/-! ## Claim theorems -/

/-- C1: pointing the driver at a nonexistent file does produce the
structured failure dictionary (success false, a descriptive message, and
none of the report fields populated), but the run then raises an uncaught
`KeyError` for the missing `error_count` key inside `print_report` instead
of printing the failure and exiting cleanly: the claimed "exits with code 1
without raising an unhandled fault" is contradicted by the code. -/
theorem C1_missing_file_keyerror :
    validate_files id [] ("t.kt") ("i.kt") = RunResult.failure (fileNotFoundMsg ("t.kt"))
  ∧ resultSuccess (validate_files id [] ("t.kt") ("i.kt")) = false
  ∧ resultGetErrors (validate_files id [] ("t.kt") ("i.kt")) = none
  ∧ resultGetWarnings (validate_files id [] ("t.kt") ("i.kt")) = none
  ∧ mainRun id [] [("test_impl_matcher.py"), ("t.kt"), ("i.kt")]
      = Except.error (keyErrorMsg ("error_count")) :=
  ⟨rfl, rfl, rfl, rfl, rfl⟩

/-- C2 counterexample: on the call `x.foo(bar(1), 2)` the non-greedy regex
of `validate_signature_match` captures the argument text `bar(1` — cut at
the first closing parenthesis, not the depth-matching one — so the nested
call is truncated and the rule even reports a spurious 1-vs-2 arity
mismatch against `fun foo(a, b)` although the real call passes two
arguments. -/
theorem C2_counterexample :
    testCalls ("x.foo(bar(1), 2)") = [(("foo"), ("bar(1"))]
  ∧ signatureErrors ("x.foo(bar(1), 2)") ("fun foo(a, b)")
      = [sigErrorMsg ("foo") 1 2] := by
  exact ⟨by decide, by decide⟩

/-- C2 (amended): the argument text captured for the arity comparison
extends only to the first closing parenthesis on the same line — the
capture never contains a `)` or a newline — so an argument containing a
nested parenthesized call is truncated rather than captured in full. -/
theorem C2_capture_stops_at_first_close (l : List Char) (m a : String)
    (rem : List Char) (h : tryMatchTestCall l = some (m, a, rem)) :
    (')' ∉ a.toList) ∧ (Char.ofNat 10 ∉ a.toList) := by
  rw [tryMatchTestCall.eq_def] at h
  split at h
  · rename_i r
    by_cases hw : (r.span isWordChar).1.isEmpty = true
    · rw [if_pos hw] at h
      simp at h
    · rw [if_neg hw] at h
      split at h
      · rename_i r3 heq
        rw [Option.map_eq_some'] at h
        obtain ⟨⟨a1, rem1⟩, hsp, heq2⟩ := h
        have ha : a = String.mk a1 := by
          have hc := congrArg (fun x : String × String × List Char => x.2.1) heq2
          simpa using hc.symm
        have hspec := spanToClose_spec _ a1 rem1 hsp
        rw [ha]
        exact hspec
      · simp at h
  · simp at h

/-- C2 witness: the amended theorem applied to the concrete call
`.foo(ab)`, whose captured argument text is `ab`. -/
theorem C2_capture_stops_at_first_close_witness :
    (')' ∉ ("ab").toList) ∧ (Char.ofNat 10 ∉ ("ab").toList) :=
  C2_capture_stops_at_first_close (".foo(ab)").toList ("foo") ("ab") []
    (by decide)

/-- C3 counterexample: with two call sites of `foo` of different arities
(`a.foo(x)` then `b.foo(x, y)`), the fact store that feeds the
arity-mismatch rule holds a single entry for `foo` carrying only the
last-seen argument text `x, y`; the distinct arity 1 of the first call
site (argument text `x`) is not retained, refuting "retains every distinct
observed argument count (one count per concrete call site)". -/
theorem C3_counterexample :
    testCalls ("a.foo(x)\nb.foo(x, y)") = [(("foo"), ("x, y"))]
  ∧ paramCount ("x") = 1 ∧ paramCount ("x, y") = 2 := by
  exact ⟨by decide, by decide, by decide⟩

/-- C3 (amended): the store keeps one argument text per method name and the
last-seen call site wins — after processing any sequence of extracted
calls ending with a call of `k` with argument text `v`, the store's entry
for `k` is exactly `v`, regardless of earlier call sites of `k`. -/
theorem C3_last_write_wins (ps : List (String × String))
    (d : List (String × String)) (k v : String) :
    dictLookup ((ps ++ [(k, v)]).foldl (fun dd p => dictInsert dd p.1 p.2) d) k
      = some v := by
  rw [List.foldl_append]
  simp only [List.foldl_cons, List.foldl_nil]
  rw [dictLookup_dictInsert]
  simp

/-- C4 counterexample: on a fixed input pair, two runs of the pipeline
whose set enumerations differ (`id` versus `List.reverse` — both are
permutations of the stored elements, i.e. both are possible CPython
set-iteration orders under different hash seeds) produce reports that are
not byte-identical: the coverage warning renders the two-element set of
untested methods in different orders. -/
theorem C4_counterexample :
    (run_all_checks id ("") ("fun alpha()\nfun beta()") ⟨[], []⟩).2.1 ≠
      (run_all_checks List.reverse ("") ("fun alpha()\nfun beta()") ⟨[], []⟩).2.1 := by
  decide

/-- C4 (amended): two runs on the same inputs under any two permutation
set-enumerations agree on error count, warning count and the success
verdict, and their error lists agree up to order (one is a permutation of
the other — the error messages themselves never render a set); what can
differ between processes is the element order embedded in the warning
messages that render sets, so the reports need not be byte-identical. -/
theorem C4_determinism_amended (ord1 ord2 : SetOrder)
    (h1 : ∀ l, (ord1 l).Perm l) (h2 : ∀ l, (ord2 l).Perm l)
    (test_code impl_code : String) :
    (run_all_checks ord1 test_code impl_code ⟨[], []⟩).2.1.error_count
        = (run_all_checks ord2 test_code impl_code ⟨[], []⟩).2.1.error_count
  ∧ (run_all_checks ord1 test_code impl_code ⟨[], []⟩).2.1.warning_count
        = (run_all_checks ord2 test_code impl_code ⟨[], []⟩).2.1.warning_count
  ∧ (run_all_checks ord1 test_code impl_code ⟨[], []⟩).2.1.success
        = (run_all_checks ord2 test_code impl_code ⟨[], []⟩).2.1.success
  ∧ ((run_all_checks ord1 test_code impl_code ⟨[], []⟩).2.1.errors).Perm
      ((run_all_checks ord2 test_code impl_code ⟨[], []⟩).2.1.errors) := by
  have hp : (methodMatchErrors ord1 test_code impl_code).Perm
      (methodMatchErrors ord2 test_code impl_code) := by
    unfold methodMatchErrors
    exact methodMatchErrorsOfCalls_perm ord1 ord2 h1 h2 _ _
  have he : (methodMatchErrors ord1 test_code impl_code).length
      = (methodMatchErrors ord2 test_code impl_code).length := hp.length_eq
  refine ⟨?_, ?_, ?_, ?_⟩
  · simp only [run_all_checks, validate_method_match, validate_test_coverage,
      validate_exception_handling, validate_signature_match, List.nil_append,
      List.length_append]
    rw [he]
  · simp only [run_all_checks, validate_method_match, validate_test_coverage,
      validate_exception_handling, validate_signature_match, List.nil_append,
      List.length_append]
    rw [coverageWarnings_length, coverageWarnings_length,
      exceptionWarnings_length, exceptionWarnings_length]
  · simp only [run_all_checks, validate_method_match, validate_test_coverage,
      validate_exception_handling, validate_signature_match, List.nil_append]
    rw [isEmpty_eq_length_beq, isEmpty_eq_length_beq,
      List.length_append, List.length_append, he]
  · simp only [run_all_checks, validate_method_match, validate_test_coverage,
      validate_exception_handling, validate_signature_match, List.nil_append]
    exact hp.append_right (signatureErrors test_code impl_code)

/-- C4 witness: the amended theorem applied at `id` and `List.reverse` on a
concrete input pair, the permutation hypotheses discharged by reflexivity
and `List.reverse_perm`. -/
theorem C4_determinism_amended_witness :
    (run_all_checks id ("") ("fun alpha()\nfun beta()") ⟨[], []⟩).2.1.error_count
        = (run_all_checks List.reverse ("") ("fun alpha()\nfun beta()") ⟨[], []⟩).2.1.error_count
  ∧ (run_all_checks id ("") ("fun alpha()\nfun beta()") ⟨[], []⟩).2.1.warning_count
        = (run_all_checks List.reverse ("") ("fun alpha()\nfun beta()") ⟨[], []⟩).2.1.warning_count
  ∧ (run_all_checks id ("") ("fun alpha()\nfun beta()") ⟨[], []⟩).2.1.success
        = (run_all_checks List.reverse ("") ("fun alpha()\nfun beta()") ⟨[], []⟩).2.1.success
  ∧ ((run_all_checks id ("") ("fun alpha()\nfun beta()") ⟨[], []⟩).2.1.errors).Perm
      ((run_all_checks List.reverse ("") ("fun alpha()\nfun beta()") ⟨[], []⟩).2.1.errors) :=
  C4_determinism_amended id List.reverse (fun l => List.Perm.refl l)
    (fun l => List.reverse_perm l) ("") ("fun alpha()\nfun beta()")

/-- C5: the arity-mismatch rule compares the call's comma-split argument
count against the definition's comma-split parameter count (empty segments
ignored), emitting the error naming both counts exactly when they differ
and nothing when they agree; the store keys are duplicate-free, so at most
one comparison happens per method name; concretely, `obj.foo(a, b)`
against `fun foo(x, y, z)` yields exactly the single 2-vs-3 error and
against `fun foo(x, y)` yields no error. -/
theorem C5_arity_rule :
    (∀ (isigs : List (String × String)) (m a p : String),
        dictLookup isigs m = some p →
          sigEntryError isigs (m, a) =
            if paramCount a = paramCount p then none
            else some (sigErrorMsg m (paramCount a) (paramCount p)))
  ∧ (∀ t : String, ((testCalls t).map Prod.fst).Nodup)
  ∧ signatureErrors ("obj.foo(a, b)") ("fun foo(x, y, z)") = [sigErrorMsg ("foo") 2 3]
  ∧ signatureErrors ("obj.foo(a, b)") ("fun foo(x, y)") = []
  ∧ paramCount ("a, b") = 2 ∧ paramCount ("x, y, z") = 3 := by
  refine ⟨?_, testCalls_keys_nodup, by decide, by decide, by decide, by decide⟩
  intro isigs m a p hp
  simp only [sigEntryError, hp]
  by_cases h : paramCount a = paramCount p
  · simp [h]
  · simp [h]

/-- C5 witness: the per-entry comparison applied at a concrete store. -/
theorem C5_arity_rule_witness :
    sigEntryError [(("foo"), ("x, y, z"))] (("foo"), ("a, b"))
      = some (sigErrorMsg ("foo") 2 3) := by
  have h := C5_arity_rule.1 [(("foo"), ("x, y, z"))] ("foo") ("a, b") ("x, y, z")
    (by decide)
  rw [h]
  decide

/-- C6: the report's success flag is exactly "error count is zero", the
boolean returned by `run_all_checks` agrees with it, and the process exit
code is 0 precisely when the error count is zero and 1 otherwise — the
warning count appears nowhere in either computation. -/
theorem C6_exit_code (ord : SetOrder) (test_code impl_code : String) :
    ((run_all_checks ord test_code impl_code ⟨[], []⟩).2.1.success
        = ((run_all_checks ord test_code impl_code ⟨[], []⟩).2.1.error_count == 0))
  ∧ ((run_all_checks ord test_code impl_code ⟨[], []⟩).1
        = (run_all_checks ord test_code impl_code ⟨[], []⟩).2.1.success)
  ∧ (exitCode (run_all_checks ord test_code impl_code ⟨[], []⟩).2.1.success
        = if (run_all_checks ord test_code impl_code ⟨[], []⟩).2.1.error_count = 0
          then 0 else 1) := by
  refine ⟨?_, rfl, ?_⟩
  · simp only [run_all_checks]
    exact isEmpty_eq_length_beq _
  · simp only [run_all_checks, exitCode]
    exact ite_isEmpty_length _

/-- C7 counterexample: adding the call site `a.foo(y)` to a corpus already
containing `a.foo(x)` (with `foo` absent from the implementation) leaves
the undefined-method error count unchanged — the (receiver, method) pair
is deduplicated in a set — refuting "adding one call site to a name absent
from the definitions increases the error count by exactly one". -/
theorem C7_counterexample :
    ((methodMatchErrors id ("a.foo(x)\na.foo(y)") ("")).length =
      (methodMatchErrors id ("a.foo(x)") ("")).length)
  ∧ ¬ ((methodMatchErrors id ("a.foo(x)\na.foo(y)") ("")).length =
      (methodMatchErrors id ("a.foo(x)") ("")).length + 1) := by
  exact ⟨by decide, by decide⟩

/-- C7 (amended): the undefined-method rule emits exactly one error per
distinct (receiver, method) pair whose method is neither allow-listed nor
defined; consequently adding a call site creating a new such pair raises
the error count by exactly one, while a call site duplicating an existing
pair leaves it unchanged (and the extracted calls store always has
duplicate-free receiver keys). -/
theorem C7_undefined_rule_amended (ord : SetOrder) (hord : ∀ l, (ord l).Perm l)
    (calls : List (String × List String)) (defs : List String) (r m : String)
    (hnd : (calls.map Prod.fst).Nodup) :
    ((methodMatchErrorsOfCalls ord calls defs).length =
        (calls.flatMap (fun p => p.2.filter (undefEmit defs))).length)
  ∧ ((methodMatchErrorsOfCalls ord (addCall calls r m) defs).length =
        (methodMatchErrorsOfCalls ord calls defs).length +
          (if hasCall calls r m then 0 else if undefEmit defs m then 1 else 0))
  ∧ (∀ t : String, ((extract_method_calls t).map Prod.fst).Nodup) := by
  refine ⟨methodMatchErrorsOfCalls_length ord hord calls defs, ?_,
    extract_method_calls_keys_nodup⟩
  rw [methodMatchErrorsOfCalls_length ord hord, methodMatchErrorsOfCalls_length ord hord,
    flatMap_filter_addCall calls (undefEmit defs) r m hnd]

/-- C7 witness: adding the new pair (b, bar) with `bar` undefined to a
concrete one-entry store raises the rule's error count by one. -/
theorem C7_undefined_rule_amended_witness :
    (methodMatchErrorsOfCalls id (addCall [(("a"), [("foo")])] ("b") ("bar")) []).length =
      (methodMatchErrorsOfCalls id [(("a"), [("foo")])] []).length +
        (if hasCall [(("a"), [("foo")])] ("b") ("bar") then 0
         else if undefEmit [] ("bar") then 1 else 0) :=
  (C7_undefined_rule_amended id (fun l => List.Perm.refl l)
    [(("a"), [("foo")])] [] ("b") ("bar") (by decide)).2.1

/-- C8: the untested-exception rule appends at most one warning per run —
a single combined message listing exactly the declared-but-untested
exception type names — and on a corpus declaring `throws ValidationError,
NotFoundError` with a test asserting only `ValidationError`, the warning
names exactly `NotFoundError`. -/
theorem C8_exception_rule (ord : SetOrder) (test_code impl_code : String) :
    ((exceptionWarnings ord test_code impl_code).length ≤ 1)
  ∧ (exceptionWarnings ord test_code impl_code =
      (if (untestedList test_code impl_code).isEmpty then []
       else [untestedExcMsg (ord (untestedList test_code impl_code))]))
  ∧ (exceptionWarnings id ("assertThatThrownBy(f).isInstanceOf(ValidationError)")
      ("fun process(x) throws ValidationError, NotFoundError")
      = [untestedExcMsg [("NotFoundError")]]) := by
  refine ⟨?_, rfl, by decide⟩
  rw [exceptionWarnings_length]
  by_cases h : (untestedList test_code impl_code).isEmpty = true
  · simp [h]
  · have h' := eq_false_of_ne_true h
    simp [h']

/-- C9: the untested-method rule considers only definitions whose name
does not start with an underscore, exempts the structural allow-list
(`equals`, `hashCode`, `toString`, `getClass`), and emits one combined
warning listing the remaining never-called methods; concretely an
uncalled `equals` produces no warning while an uncalled `computeTotal`
produces exactly one. -/
theorem C9_coverage_rule (ord : SetOrder) (test_code impl_code : String) :
    (coverageWarnings ord test_code impl_code =
      (if (uncoveredList test_code impl_code).isEmpty then []
       else [uncoveredMsg (ord (uncoveredList test_code impl_code))]))
  ∧ (∀ m ∈ uncoveredList test_code impl_code,
        startsWithUnderscore m = false ∧ m ∉ exemptNames)
  ∧ (coverageWarnings id ("") ("fun equals(other)") = [])
  ∧ (coverageWarnings id ("") ("fun computeTotal(a, b)")
      = [uncoveredMsg [("computeTotal")]]) := by
  refine ⟨rfl, ?_, by decide, by decide⟩
  intro m hm
  simp only [uncoveredList, List.mem_filter] at hm
  obtain ⟨⟨⟨hdef, hpub⟩, hcalled⟩, hexempt⟩ := hm
  refine ⟨by simpa using hpub, by simpa using hexempt⟩

/-- C9 witness: the membership part of the rule applied at the uncovered
method `computeTotal` of a concrete corpus. -/
theorem C9_coverage_rule_witness :
    startsWithUnderscore ("computeTotal") = false ∧ ("computeTotal") ∉ exemptNames :=
  (C9_coverage_rule id ("") ("fun computeTotal(a, b)")).2.1 ("computeTotal") (by decide)

/-- C10: `run_all_checks` is not idempotent on one matcher instance — the
second invocation re-appends every finding to the instance lists, so both
reported counts are exactly twice those of the first invocation. -/
theorem C10_run_all_checks_doubles (ord : SetOrder) (test_code impl_code : String) :
    ((run_all_checks ord test_code impl_code
        (run_all_checks ord test_code impl_code ⟨[], []⟩).2.2).2.1.error_count
      = 2 * (run_all_checks ord test_code impl_code ⟨[], []⟩).2.1.error_count)
  ∧ ((run_all_checks ord test_code impl_code
        (run_all_checks ord test_code impl_code ⟨[], []⟩).2.2).2.1.warning_count
      = 2 * (run_all_checks ord test_code impl_code ⟨[], []⟩).2.1.warning_count) := by
  constructor <;>
  · simp only [run_all_checks, validate_method_match, validate_test_coverage,
      validate_exception_handling, validate_signature_match, List.nil_append,
      List.length_append]
    omega
